import Mathlib

/-!
Verification of the Spending Forecast subsystem of the Personal-Finance
Platform.

Part A embeds the backend HTTP boundary `GET /api/ai/predict`
(`backend/routes/ai.js`): the database query for the user's expense
rows, the 15-transaction minimum gate, the call to the ML service, and
the delete-then-insert persistence of returned predictions.

Part B embeds the prediction engine (`mlservice/prediction_service.py`,
described by the repository documentation and the specification):
aggregation of transactions into a month × category matrix, min-max
scaling, the trend fallback with seasonal multipliers, and the
orchestrating `forecast` function.  Amounts are modelled as exact
rationals.
-/

set_option maxHeartbeats 1000000

namespace Forecast

/-- A calendar date (year, month, day) as stored in the `date` column. -/
structure CalDate where
  y : Nat
  m : Nat
  d : Nat
deriving DecidableEq, Repr

/-- Linear key for chronological comparison of dates (months are 1–12 and
days 1–31, so the key is strictly monotone in calendar order). -/
def CalDate.key (dt : CalDate) : Nat :=
  (dt.y * 12 + dt.m) * 32 + dt.d

/-- A row of the `transactions` table (the columns the predict route
touches): `user_id`, `category`, signed `amount`, `date`. -/
structure TxnRow where
  user_id : Nat
  category : String
  amount : Rat
  date : CalDate
deriving DecidableEq, Repr

/-- The projection `select('category', 'amount', 'date')` used by the
spending query in `router.get('/predict')`. -/
structure SpendingRow where
  category : String
  amount : Rat
  date : CalDate
deriving DecidableEq, Repr

/-- Project a transaction row onto the three selected columns. -/
def TxnRow.toSpending (t : TxnRow) : SpendingRow :=
  { category := t.category, amount := t.amount, date := t.date }

/-- Insert a row into a list kept in descending date order
(models the SQL `orderBy('date', 'desc')`). -/
def insertByDateDesc (r : SpendingRow) : List SpendingRow → List SpendingRow
  | [] => [r]
  | s :: ss =>
      if r.date.key ≤ s.date.key then s :: insertByDateDesc r ss
      else r :: s :: ss

/-- Sort a list of spending rows by date, newest first. -/
def sortByDateDesc : List SpendingRow → List SpendingRow
  | [] => []
  | r :: rs => insertByDateDesc r (sortByDateDesc rs)

/-- `.take 1000` cap of the spending query. -/
def QUERY_LIMIT : Nat := 1000

/-- Minimum transaction requirement of the predict route. -/
def MIN_TRANSACTIONS : Nat := 15

/-- The spending query of `router.get('/predict')`:
`db('transactions').select('category','amount','date')
 .where('user_id', uid).where('amount','<',0)
 .orderBy('date','desc').limit(1000)`. -/
def querySpending (txns : List TxnRow) (uid : Nat) : List SpendingRow :=
  (sortByDateDesc
    ((txns.filter (fun t => decide (t.user_id = uid ∧ t.amount < 0))).map
      TxnRow.toSpending)).take QUERY_LIMIT

/-- A row of the `predictions` table as written by the predict route
(`month` and `year` hold the `parseInt` results, so values outside 1–12
are representable). -/
structure PredRow where
  user_id : Nat
  category : String
  predicted_amount : Rat
  month : Int
  year : Int
deriving DecidableEq, Repr

/-- One prediction entry of the ML service response. -/
structure MLPrediction where
  category : String
  predicted_amount : Rat
  confidence : Rat
deriving DecidableEq, Repr, Inhabited

/-- The ML service `/predict` response body. -/
structure MLResponse where
  predictions : List MLPrediction
  method : String
  target_month : Int
  target_year : Int
deriving DecidableEq, Repr, Inhabited

/-- The request body the backend posts to the ML service `/predict`. -/
structure MLRequest where
  user_id : Nat
  spending_data : List SpendingRow
  target_month : Int
  target_year : Int
deriving DecidableEq, Repr

/-- The JSON the predict route answers with: either the insufficient-data
body (empty predictions, `insufficient_data: true`, counts) or the ML
service response relayed unchanged. -/
inductive PredictResponse where
  | insufficient (current_count required_count : Nat)
  | ok (resp : MLResponse)
deriving DecidableEq, Repr

/-- The `predictions` field of the response JSON (empty in the
insufficient-data body). -/
def PredictResponse.predictionList : PredictResponse → List MLPrediction
  | .insufficient _ _ => []
  | .ok r => r.predictions

/-- The `insufficient_data` flag of the response JSON (absent/false on the
relayed ML response). -/
def PredictResponse.insufficientFlag : PredictResponse → Bool
  | .insufficient _ _ => true
  | .ok _ => false

/-- The two tables the predict route reads or writes. -/
structure DB where
  transactions : List TxnRow
  predictions : List PredRow
deriving DecidableEq, Repr

/-- Result of one handled predict request: the JSON response, the request
posted to the ML service (`none` when the service was never called), and
the database afterwards. -/
structure PredictOutcome where
  response : PredictResponse
  mlRequest : Option MLRequest
  db : DB
deriving Repr

/-- `const targetMonth = month || new Date().getMonth() + 2`:
`nowMonth0` is the zero-based result of `getMonth()`; an omitted or falsy
`month` query parameter selects the default, with no wrap-around. -/
def targetMonthOf (monthParam : Option Int) (nowMonth0 : Nat) : Int :=
  match monthParam with
  | some m => m
  | none => (nowMonth0 : Int) + 2

/-- `const targetYear = year || new Date().getFullYear()`. -/
def targetYearOf (yearParam : Option Int) (nowYear : Int) : Int :=
  match yearParam with
  | some y => y
  | none => nowYear

/-- The body of `router.get('/predict')` in `backend/routes/ai.js`,
parameterised by the ML service (`engine`).  Mirrors the source: compute
target month/year, run the spending query, gate on 15 transactions,
otherwise post to the ML service and, when it returns a non-empty
predictions list, delete the user's stored predictions for the target
period and insert the returned ones. -/
def predictHandler (engine : MLRequest → MLResponse) (db : DB) (uid : Nat)
    (monthParam yearParam : Option Int) (nowMonth0 : Nat) (nowYear : Int) :
    PredictOutcome :=
  let targetMonth := targetMonthOf monthParam nowMonth0
  let targetYear := targetYearOf yearParam nowYear
  let spendingData := querySpending db.transactions uid
  if spendingData.length < MIN_TRANSACTIONS then
    { response := .insufficient spendingData.length MIN_TRANSACTIONS,
      mlRequest := none, db := db }
  else
    let req : MLRequest :=
      { user_id := uid, spending_data := spendingData,
        target_month := targetMonth, target_year := targetYear }
    let resp := engine req
    let kept := db.predictions.filter
      (fun p => !(decide (p.user_id = uid ∧ p.month = targetMonth ∧
                          p.year = targetYear)))
    let inserted := resp.predictions.map (fun pred =>
      { user_id := uid, category := pred.category,
        predicted_amount := pred.predicted_amount,
        month := targetMonth, year := targetYear })
    let newDb :=
      if 0 < resp.predictions.length then
        { db with predictions := kept ++ inserted }
      else db
    { response := .ok resp, mlRequest := some req, db := newDb }

/-! ## Part B: the prediction engine

`mlservice/prediction_service.py` is not among the provided sources; the
definitions below are modelled from the specification and from the
repository's own documentation of that file. -/

/-- The fixed category vocabulary, in its fixed order. -/
def categories : List String :=
  ["food", "transportation", "shopping", "entertainment", "utilities",
   "healthcare", "education", "travel", "insurance", "other"]

/-- Truncate a date to its (year, month), linearised as a month index. -/
def monthIndex (dt : CalDate) : Nat := dt.y * 12 + (dt.m - 1)

/-- Modelled from the spec: unknown or empty category strings map to the
catch-all category "other". -/
def cleanCategory (c : String) : String :=
  if categories.contains c then c else "other"

/-- Modelled from the spec: amounts are normalised to positive magnitude
before aggregation (expense rows arrive with negative amounts). -/
def magnitude (a : Rat) : Rat := |a|

/-- Total cleaned spending of `txns` in calendar month `ym` (a month
index) for vocabulary category `cat`. -/
def monthCatSum (txns : List SpendingRow) (ym : Nat) (cat : String) : Rat :=
  ((txns.filter (fun t =>
      decide (monthIndex t.date = ym ∧ cleanCategory t.category = cat))).map
    (fun t => magnitude t.amount)).sum

/-- Earliest month index present in the transaction list (0 on empty). -/
def monthLo : List SpendingRow → Nat
  | [] => 0
  | t :: ts => (ts.map (fun u => monthIndex u.date)).foldl min (monthIndex t.date)

/-- Latest month index present in the transaction list (0 on empty). -/
def monthHi : List SpendingRow → Nat
  | [] => 0
  | t :: ts => (ts.map (fun u => monthIndex u.date)).foldl max (monthIndex t.date)

/-- Modelled from the spec: the Aggregator.  One row per calendar month
from the earliest to the latest month present (inclusive), each row one
entry per vocabulary category; a month with no transactions yields the
all-zero row.  `mlservice/prediction_service.py` is not in the provided
sources; this follows §4.1 of the specification. -/
def aggregate (txns : List SpendingRow) : List (List Rat) :=
  match txns with
  | [] => []
  | _ :: _ =>
      (List.range (monthHi txns - monthLo txns + 1)).map (fun k =>
        categories.map (fun c => monthCatSum txns (monthLo txns + k) c))

/-- Column `c` of a matrix (missing entries read as 0). -/
def column (mx : List (List Rat)) (c : Nat) : List Rat :=
  mx.map (fun row => row.getD c 0)

/-- Minimum of column `c` (0 on an empty matrix). -/
def colMin (mx : List (List Rat)) (c : Nat) : Rat :=
  match column mx c with
  | [] => 0
  | x :: xs => xs.foldl min x

/-- Maximum of column `c` (0 on an empty matrix). -/
def colMax (mx : List (List Rat)) (c : Nat) : Rat :=
  match column mx c with
  | [] => 0
  | x :: xs => xs.foldl max x

/-- Per-category (min, max) state of the MinMax scaler. -/
structure ScalerState where
  mins : List Rat
  maxs : List Rat
deriving DecidableEq, Repr

/-- Modelled from the spec: `fit` records per-category minima and maxima
of the training matrix. -/
def fitScaler (mx : List (List Rat)) : ScalerState :=
  { mins := (List.range categories.length).map (fun c => colMin mx c),
    maxs := (List.range categories.length).map (fun c => colMax mx c) }

/-- Clamp a scaled value into [0, 1]. -/
def clamp01 (x : Rat) : Rat := min 1 (max 0 x)

/-- Modelled from the spec: `transform` maps `v` to
`(v - min) / (max - min)` clamped to [0,1]; a category with
`max = min` maps every value to 0.5. -/
def transform1 (st : ScalerState) (c : Nat) (v : Rat) : Rat :=
  let mn := st.mins.getD c 0
  let mx := st.maxs.getD c 0
  if mx = mn then 1 / 2 else clamp01 ((v - mn) / (mx - mn))

/-- Modelled from the spec: `inverse_transform` is the algebraic inverse
`v * (max - min) + min`, floored at 0. -/
def inverse1 (st : ScalerState) (c : Nat) (v : Rat) : Rat :=
  let mn := st.mins.getD c 0
  let mx := st.maxs.getD c 0
  max 0 (v * (mx - mn) + mn)

/-- Mean of column `c` over all months of the matrix (0 on empty). -/
def colMean (mx : List (List Rat)) (c : Nat) : Rat :=
  if mx.length = 0 then 0 else (column mx c).sum / (mx.length : Rat)

/-- Modelled from the spec: the fixed seasonal multiplier table keyed by
(category, target month): shopping ×1.5 in November and ×1.8 in December,
travel ×1.4 in June–August, utilities ×1.2 in December–February, and 1.0
for every other combination. -/
def seasonalMultiplier (cat : String) (targetMonth : Int) : Rat :=
  if cat = "shopping" ∧ targetMonth = 11 then 3 / 2
  else if cat = "shopping" ∧ targetMonth = 12 then 9 / 5
  else if cat = "travel" ∧ (6 ≤ targetMonth ∧ targetMonth ≤ 8) then 7 / 5
  else if cat = "utilities" ∧
          (targetMonth = 12 ∨ targetMonth = 1 ∨ targetMonth = 2) then 6 / 5
  else 1

/-- Trend-fallback predicted amount for category index `c`: mean monthly
magnitude times the seasonal multiplier for the target month. -/
def trendAmount (mx : List (List Rat)) (c : Nat) (targetMonth : Int) : Rat :=
  colMean mx c * seasonalMultiplier (categories.getD c "other") targetMonth

/-- Window length of the sequence model. -/
def WINDOW : Nat := 12

/-- Method tag of the sequence-model path; the repository documentation's
example output shows `"method": "lstm_model"`. -/
def lstmMethodName : String := "lstm_model"

/-- Modelled from the spec: method tag of the trend-fallback path. -/
def trendMethodName : String := "trend_fallback"

/-- Fixed confidence of sequence-model predictions (0.8). -/
def lstmConfidence : Rat := 4 / 5

/-- Fixed confidence of trend-fallback predictions (0.6). -/
def trendConfidence : Rat := 3 / 5

/-- The last `WINDOW` rows of the matrix, scaled per category. -/
def scaledWindow (st : ScalerState) (mx : List (List Rat)) :
    List (List Rat) :=
  (mx.drop (mx.length - WINDOW)).map (fun row =>
    (List.range categories.length).map (fun c => transform1 st c (row.getD c 0)))

/-- Modelled from the spec and the repository documentation: the Forecast
Orchestrator.  With at least `WINDOW` aggregated months it scales the
most recent window, runs the trained sequence model (`lstm`, kept
abstract), denormalises and floors each output, and tags the result
`lstm_model` with confidence 0.8; with fewer months it uses the trend
fallback (mean × seasonal multiplier) tagged `trend_fallback` with
confidence 0.6.  Either way the output has one entry per vocabulary
category, in order. -/
def forecast (lstm : List (List Rat) → List Rat) (txns : List SpendingRow)
    (target_month target_year : Int) : MLResponse :=
  let matrix := aggregate txns
  if WINDOW ≤ matrix.length then
    let st := fitScaler matrix
    let out := lstm (scaledWindow st matrix)
    { predictions := (List.range categories.length).map (fun c =>
        { category := categories.getD c "other",
          predicted_amount := inverse1 st c (out.getD c 0),
          confidence := lstmConfidence }),
      method := lstmMethodName,
      target_month := target_month, target_year := target_year }
  else
    { predictions := (List.range categories.length).map (fun c =>
        { category := categories.getD c "other",
          predicted_amount := trendAmount matrix c target_month,
          confidence := trendConfidence }),
      method := trendMethodName,
      target_month := target_month, target_year := target_year }

/-- A sequence model that outputs the zero vector; used to instantiate
the abstract `lstm` parameter on concrete inputs. -/
def lstmZero : List (List Rat) → List Rat :=
  fun _ => List.replicate categories.length 0

/-- The ML service seen from the backend: `forecast` applied to the
posted request. -/
def engineOf (lstm : List (List Rat) → List Rat) : MLRequest → MLResponse :=
  fun req => forecast lstm req.spending_data req.target_month req.target_year

/-- Pairwise descending-date order (what `orderBy('date','desc')`
guarantees about the forwarded list). -/
def SortedDesc (l : List SpendingRow) : Prop :=
  List.Pairwise (fun a b => b.date.key ≤ a.date.key) l

/-- The request body the handler posts when the minimum-transaction gate
passes (spelled out for use in lemma statements). -/
def reqOf (db : DB) (uid : Nat) (monthParam yearParam : Option Int)
    (nowMonth0 : Nat) (nowYear : Int) : MLRequest :=
  { user_id := uid, spending_data := querySpending db.transactions uid,
    target_month := targetMonthOf monthParam nowMonth0,
    target_year := targetYearOf yearParam nowYear }

/-- The predictions table after the delete-then-insert step: the user's
rows for the target period removed, the returned predictions appended
(spelled out for use in lemma statements). -/
def newPredictions (db : DB) (uid : Nat) (tm ty : Int)
    (preds : List MLPrediction) : List PredRow :=
  db.predictions.filter
    (fun p => !(decide (p.user_id = uid ∧ p.month = tm ∧ p.year = ty)))
  ++ preds.map (fun pred =>
      { user_id := uid, category := pred.category,
        predicted_amount := pred.predicted_amount, month := tm, year := ty })

/-! ### Concrete data used by witnesses and counterexamples -/

/-- Sixteen expense transactions of user 1 (one per day of January 2024). -/
def wTxns : List TxnRow :=
  (List.range 16).map (fun i =>
    { user_id := 1, category := "food", amount := -5,
      date := { y := 2024, m := 1, d := i + 1 } })

/-- Three expense transactions of user 1 (too few to pass the gate). -/
def wFewTxns : List TxnRow :=
  (List.range 3).map (fun i =>
    { user_id := 1, category := "food", amount := -5,
      date := { y := 2024, m := 1, d := i + 1 } })

/-- A stored prediction row of another user. -/
def wOtherPred : PredRow :=
  { user_id := 2, category := "food", predicted_amount := 7,
    month := 3, year := 2024 }

/-- Database with enough expense history for user 1. -/
def wDB : DB := { transactions := wTxns, predictions := [wOtherPred] }

/-- Database with too little expense history for user 1. -/
def wFewDB : DB := { transactions := wFewTxns, predictions := [wOtherPred] }

/-- The request the handler posts for `wDB`, user 1, default month/year
taken in December 2024. -/
def wReq : MLRequest :=
  { user_id := 1, spending_data := querySpending wTxns 1,
    target_month := 13, target_year := 2024 }

/-- Spending rows covering twelve distinct months of 2023. -/
def txns12 : List SpendingRow :=
  (List.range 12).map (fun i =>
    { category := "food", amount := -10,
      date := { y := 2023, m := i + 1, d := 5 } })

/-- Spending rows: shopping expenses of 150, 200, 250 over three distinct
months (mean 200). -/
def txns3 : List SpendingRow :=
  [{ category := "shopping", amount := -150,
     date := { y := 2024, m := 1, d := 10 } },
   { category := "shopping", amount := -200,
     date := { y := 2024, m := 2, d := 10 } },
   { category := "shopping", amount := -250,
     date := { y := 2024, m := 3, d := 10 } }]

/-- Spending rows present in January and March 2024 but not February. -/
def gapTxns : List SpendingRow :=
  [{ category := "food", amount := -30,
     date := { y := 2024, m := 1, d := 4 } },
   { category := "food", amount := -40,
     date := { y := 2024, m := 3, d := 4 } }]

/-- A two-month training matrix whose first column is constant. -/
def constMatrix : List (List Rat) := [[3], [3]]

/-- A two-month training matrix with distinct first-column values. -/
def twoMatrix : List (List Rat) := [[1], [3]]

end Forecast

namespace Forecast

/-! ## Auxiliary lemmas -/

theorem foldl_min_le_init {α : Type} [LinearOrder α] (l : List α) (i : α) :
    l.foldl min i ≤ i := by
  induction l generalizing i with
  | nil => exact le_refl i
  | cons a l ih => exact le_trans (ih (min i a)) (min_le_left i a)

theorem foldl_min_le_mem {α : Type} [LinearOrder α] {l : List α} {x : α}
    (hx : x ∈ l) (i : α) : l.foldl min i ≤ x := by
  induction l generalizing i with
  | nil => cases hx
  | cons a l ih =>
      rcases List.mem_cons.mp hx with h | h
      · subst h
        exact le_trans (foldl_min_le_init l (min i x)) (min_le_right i x)
      · exact ih h (min i a)

theorem foldl_min_choice {α : Type} [LinearOrder α] (l : List α) (i : α) :
    l.foldl min i = i ∨ l.foldl min i ∈ l := by
  induction l generalizing i with
  | nil => exact Or.inl rfl
  | cons a l ih =>
      rw [List.foldl_cons]
      rcases ih (min i a) with h | h
      · rcases le_total i a with hle | hle
        · exact Or.inl (by rw [h, min_eq_left hle])
        · exact Or.inr (by rw [h, min_eq_right hle]; exact List.mem_cons_self a l)
      · exact Or.inr (List.mem_cons_of_mem a h)

theorem init_le_foldl_max {α : Type} [LinearOrder α] (l : List α) (i : α) :
    i ≤ l.foldl max i := by
  induction l generalizing i with
  | nil => exact le_refl i
  | cons a l ih => exact le_trans (le_max_left i a) (ih (max i a))

theorem mem_le_foldl_max {α : Type} [LinearOrder α] {l : List α} {x : α}
    (hx : x ∈ l) (i : α) : x ≤ l.foldl max i := by
  induction l generalizing i with
  | nil => cases hx
  | cons a l ih =>
      rcases List.mem_cons.mp hx with h | h
      · subst h
        exact le_trans (le_max_right i x) (init_le_foldl_max l (max i x))
      · exact ih h (max i a)

theorem foldl_max_choice {α : Type} [LinearOrder α] (l : List α) (i : α) :
    l.foldl max i = i ∨ l.foldl max i ∈ l := by
  induction l generalizing i with
  | nil => exact Or.inl rfl
  | cons a l ih =>
      rw [List.foldl_cons]
      rcases ih (max i a) with h | h
      · rcases le_total i a with hle | hle
        · exact Or.inr (by rw [h, max_eq_right hle]; exact List.mem_cons_self a l)
        · exact Or.inl (by rw [h, max_eq_left hle])
      · exact Or.inr (List.mem_cons_of_mem a h)

theorem getD_map_range {α : Type} (f : Nat → α) (d : α) {n c : Nat}
    (h : c < n) : ((List.range n).map f).getD c d = f c := by
  rw [List.getD_eq_getElem?_getD, List.getElem?_map, List.getElem?_range h]
  rfl

theorem length_insertByDateDesc (r : SpendingRow) (l : List SpendingRow) :
    (insertByDateDesc r l).length = l.length + 1 := by
  induction l with
  | nil => rfl
  | cons s ss ih =>
      simp only [insertByDateDesc]
      split
      · simp [ih]
      · simp

theorem length_sortByDateDesc (l : List SpendingRow) :
    (sortByDateDesc l).length = l.length := by
  induction l with
  | nil => rfl
  | cons r rs ih => simp [sortByDateDesc, length_insertByDateDesc, ih]

theorem mem_insertByDateDesc {a r : SpendingRow} {l : List SpendingRow} :
    a ∈ insertByDateDesc r l ↔ a = r ∨ a ∈ l := by
  induction l with
  | nil => simp [insertByDateDesc]
  | cons s ss ih =>
      simp only [insertByDateDesc]
      split
      · simp only [List.mem_cons, ih]
        tauto
      · simp only [List.mem_cons]

theorem mem_sortByDateDesc {a : SpendingRow} {l : List SpendingRow} :
    a ∈ sortByDateDesc l ↔ a ∈ l := by
  induction l with
  | nil => simp [sortByDateDesc]
  | cons r rs ih =>
      simp only [sortByDateDesc, mem_insertByDateDesc, ih, List.mem_cons]

theorem sortedDesc_insertByDateDesc {r : SpendingRow} {l : List SpendingRow}
    (h : SortedDesc l) : SortedDesc (insertByDateDesc r l) := by
  induction l with
  | nil => exact List.pairwise_singleton _ r
  | cons s ss ih =>
      obtain ⟨hall, hss⟩ := List.pairwise_cons.mp h
      simp only [insertByDateDesc]
      split
      · rename_i hle
        refine List.Pairwise.cons ?_ (ih hss)
        intro b hb
        rcases mem_insertByDateDesc.mp hb with rfl | hb2
        · exact hle
        · exact hall b hb2
      · rename_i hgt
        refine List.Pairwise.cons ?_ h
        intro b hb
        rcases List.mem_cons.mp hb with rfl | hb2
        · exact le_of_lt (not_le.mp hgt)
        · exact le_trans (hall b hb2) (le_of_lt (not_le.mp hgt))

theorem sortedDesc_sortByDateDesc (l : List SpendingRow) :
    SortedDesc (sortByDateDesc l) := by
  induction l with
  | nil => exact List.Pairwise.nil
  | cons r rs ih => exact sortedDesc_insertByDateDesc ih

theorem length_querySpending (txns : List TxnRow) (uid : Nat) :
    (querySpending txns uid).length =
      min QUERY_LIMIT
        ((txns.filter (fun t => decide (t.user_id = uid ∧ t.amount < 0))).length) := by
  simp [querySpending, List.length_take, length_sortByDateDesc, List.length_map]

theorem predictHandler_insufficient_eq (engine : MLRequest → MLResponse)
    (db : DB) (uid : Nat) (mp yp : Option Int) (nm : Nat) (ny : Int)
    (hlt : (querySpending db.transactions uid).length < MIN_TRANSACTIONS) :
    predictHandler engine db uid mp yp nm ny =
      { response := .insufficient (querySpending db.transactions uid).length
          MIN_TRANSACTIONS,
        mlRequest := none, db := db } := by
  simp only [predictHandler]
  rw [if_pos hlt]

theorem predictHandler_mlRequest_eq (engine : MLRequest → MLResponse)
    (db : DB) (uid : Nat) (mp yp : Option Int) (nm : Nat) (ny : Int)
    (hge : MIN_TRANSACTIONS ≤ (querySpending db.transactions uid).length) :
    (predictHandler engine db uid mp yp nm ny).mlRequest =
      some (reqOf db uid mp yp nm ny) := by
  simp only [predictHandler]
  rw [if_neg (not_lt.mpr hge)]
  rfl

theorem predictHandler_db_eq (engine : MLRequest → MLResponse)
    (db : DB) (uid : Nat) (mp yp : Option Int) (nm : Nat) (ny : Int)
    (hge : MIN_TRANSACTIONS ≤ (querySpending db.transactions uid).length) :
    (predictHandler engine db uid mp yp nm ny).db =
      (if 0 < (engine (reqOf db uid mp yp nm ny)).predictions.length then
        { transactions := db.transactions,
          predictions := newPredictions db uid (targetMonthOf mp nm) (targetYearOf yp ny) (engine (reqOf db uid mp yp nm ny)).predictions }
      else db) := by
  simp only [predictHandler]
  rw [if_neg (not_lt.mpr hge)]
  rfl

end Forecast

namespace Forecast

/-! ## Engine-side lemmas -/

theorem monthCatSum_eq_zero {txns : List SpendingRow} {ym : Nat}
    (h : ∀ tr ∈ txns, monthIndex tr.date ≠ ym) (cat : String) :
    monthCatSum txns ym cat = 0 := by
  have hnil : txns.filter (fun t =>
      decide (monthIndex t.date = ym ∧ cleanCategory t.category = cat)) = [] := by
    rw [List.filter_eq_nil_iff]
    intro a ha
    simp only [decide_eq_true_eq, not_and]
    intro hm
    exact absurd hm (h a ha)
  simp only [monthCatSum, hnil, List.map_nil, List.sum_nil]

theorem aggregate_row (t : SpendingRow) (ts : List SpendingRow) {k : Nat}
    (hk : k < monthHi (t :: ts) - monthLo (t :: ts) + 1) :
    (aggregate (t :: ts))[k]? =
      some (categories.map
        (fun c => monthCatSum (t :: ts) (monthLo (t :: ts) + k) c)) := by
  simp only [aggregate]
  rw [List.getElem?_map, List.getElem?_range hk]
  rfl

theorem colMin_le_mem (mx : List (List Rat)) (c : Nat) {v : Rat}
    (hv : v ∈ column mx c) : colMin mx c ≤ v := by
  rcases hcol : column mx c with _ | ⟨x, xs⟩
  · rw [hcol] at hv
    cases hv
  · rw [hcol] at hv
    simp only [colMin, hcol]
    rcases List.mem_cons.mp hv with rfl | hmem
    · exact foldl_min_le_init xs v
    · exact foldl_min_le_mem hmem x

theorem mem_le_colMax (mx : List (List Rat)) (c : Nat) {v : Rat}
    (hv : v ∈ column mx c) : v ≤ colMax mx c := by
  rcases hcol : column mx c with _ | ⟨x, xs⟩
  · rw [hcol] at hv
    cases hv
  · rw [hcol] at hv
    simp only [colMax, hcol]
    rcases List.mem_cons.mp hv with rfl | hmem
    · exact init_le_foldl_max xs v
    · exact mem_le_foldl_max hmem x

/-! ## Claim theorems (engine side) -/

/-- C3 counterexample: on a twelve-month history the engine's method tag
is not the string "sequence_model" claimed by the specification. -/
theorem forecast_method_name_counterexample :
    (forecast lstmZero txns12 1 2024).method ≠ "sequence_model" := by
  decide

/-- C3 (amended): for every forecast request whose aggregated history has
twelve or more months, the method tag is the code's "lstm_model" (the
spec's renamed "sequence_model" path) and every prediction carries
confidence 0.8. -/
theorem forecast_sequence_model_method (lstm : List (List Rat) → List Rat)
    (txns : List SpendingRow) (tm ty : Int)
    (h : WINDOW ≤ (aggregate txns).length) :
    (forecast lstm txns tm ty).method = "lstm_model" ∧
    ∀ p ∈ (forecast lstm txns tm ty).predictions, p.confidence = 4 / 5 := by
  simp only [forecast]
  rw [if_pos h]
  refine ⟨rfl, ?_⟩
  intro p hp
  simp only [List.mem_map] at hp
  obtain ⟨c, hc, rfl⟩ := hp
  rfl

/-- Witness for the C3 theorem at a concrete twelve-month history. -/
theorem forecast_sequence_model_method_witness :
    (forecast lstmZero txns12 1 2024).method = "lstm_model" ∧
    ∀ p ∈ (forecast lstmZero txns12 1 2024).predictions, p.confidence = 4 / 5 :=
  forecast_sequence_model_method lstmZero txns12 1 2024 (by decide)

/-- C4: for every forecast request whose aggregated history has fewer
than twelve months, the result is the handled trend-fallback branch (one
entry per vocabulary category, never an error), its method tag is
"trend_fallback" and every prediction carries confidence 0.6. -/
theorem forecast_trend_fallback_path (lstm : List (List Rat) → List Rat)
    (txns : List SpendingRow) (tm ty : Int)
    (h : (aggregate txns).length < WINDOW) :
    (forecast lstm txns tm ty).method = "trend_fallback" ∧
    (forecast lstm txns tm ty).predictions.length = categories.length ∧
    ∀ p ∈ (forecast lstm txns tm ty).predictions, p.confidence = 3 / 5 := by
  simp only [forecast]
  rw [if_neg (not_le.mpr h)]
  refine ⟨rfl, by simp, ?_⟩
  intro p hp
  simp only [List.mem_map] at hp
  obtain ⟨c, hc, rfl⟩ := hp
  rfl

/-- Witness for the C4 theorem at a concrete three-month history. -/
theorem forecast_trend_fallback_path_witness :
    (forecast lstmZero txns3 4 2024).method = "trend_fallback" ∧
    (forecast lstmZero txns3 4 2024).predictions.length = categories.length ∧
    ∀ p ∈ (forecast lstmZero txns3 4 2024).predictions, p.confidence = 3 / 5 :=
  forecast_trend_fallback_path lstmZero txns3 4 2024 (by decide)

/-- C6: a category whose observed minimum equals its observed maximum is
transformed to exactly 0.5 for every value, so the scaling division is
never taken with a zero denominator. -/
theorem transform_degenerate_half (mx : List (List Rat)) (c : Nat) (v : Rat)
    (hc : c < categories.length) (h : colMin mx c = colMax mx c) :
    transform1 (fitScaler mx) c v = 1 / 2 := by
  simp only [transform1, fitScaler]
  rw [getD_map_range _ _ hc, getD_map_range _ _ hc]
  rw [if_pos h.symm]

/-- Witness for the C6 theorem on a constant-column training matrix. -/
theorem transform_degenerate_half_witness :
    transform1 (fitScaler constMatrix) 0 7 = 1 / 2 :=
  transform_degenerate_half constMatrix 0 7 (by decide) (by rfl)

/-- C7: for every matrix value, inverse-transforming its transform
recovers the value exactly, except that the non-negativity clamp floors
the result at 0 (for the non-negative values of a spending matrix the
round trip is the identity). -/
theorem scaler_roundtrip_clamped (mx : List (List Rat)) (c : Nat)
    (row : List Rat) (hrow : row ∈ mx) (hc : c < categories.length) :
    inverse1 (fitScaler mx) c (transform1 (fitScaler mx) c (row.getD c 0))
      = max 0 (row.getD c 0) := by
  have hvcol : row.getD c 0 ∈ column mx c :=
    List.mem_map.mpr ⟨row, hrow, rfl⟩
  have hmn : colMin mx c ≤ row.getD c 0 := colMin_le_mem mx c hvcol
  have hmx : row.getD c 0 ≤ colMax mx c := mem_le_colMax mx c hvcol
  simp only [transform1, inverse1, fitScaler]
  rw [getD_map_range _ _ hc, getD_map_range _ _ hc]
  by_cases hdeg : colMax mx c = colMin mx c
  · rw [if_pos hdeg]
    have hveq : row.getD c 0 = colMin mx c :=
      le_antisymm (le_of_le_of_eq hmx hdeg) hmn
    rw [hveq, hdeg]
    congr 1
    ring
  · rw [if_neg hdeg]
    have hlt : colMin mx c < colMax mx c :=
      lt_of_le_of_ne (le_trans hmn hmx) (Ne.symm hdeg)
    have hpos : (0:Rat) < colMax mx c - colMin mx c := sub_pos.mpr hlt
    have h01 : clamp01 ((row.getD c 0 - colMin mx c) / (colMax mx c - colMin mx c))
        = (row.getD c 0 - colMin mx c) / (colMax mx c - colMin mx c) := by
      unfold clamp01
      rw [max_eq_right (div_nonneg (sub_nonneg.mpr hmn) (le_of_lt hpos))]
      rw [min_eq_right ((div_le_one hpos).mpr (sub_le_sub_right hmx _))]
    rw [h01]
    congr 1
    field_simp

/-- Witness for the C7 theorem on a concrete two-month matrix. -/
theorem scaler_roundtrip_clamped_witness :
    inverse1 (fitScaler twoMatrix) 0
        (transform1 (fitScaler twoMatrix) 0 ([(3:Rat)].getD 0 0))
      = max 0 ([(3:Rat)].getD 0 0) :=
  scaler_roundtrip_clamped twoMatrix 0 [3] (by decide) (by decide)

/-- C5: the aggregated matrix has exactly one row per calendar month from
the earliest to the latest month present (both attained), each in-range
month's row is the per-category sums, and a month with no transactions
yields the all-zero row — no intermediate month is absent. -/
theorem aggregate_no_month_gaps (txns : List SpendingRow) (hne : txns ≠ []) :
    (aggregate txns).length = monthHi txns - monthLo txns + 1 ∧
    (∀ tr ∈ txns, monthLo txns ≤ monthIndex tr.date ∧
        monthIndex tr.date ≤ monthHi txns) ∧
    (∃ tr ∈ txns, monthIndex tr.date = monthLo txns) ∧
    (∃ tr ∈ txns, monthIndex tr.date = monthHi txns) ∧
    (∀ k, k ≤ monthHi txns - monthLo txns →
      (aggregate txns)[k]? =
        some (categories.map (fun c => monthCatSum txns (monthLo txns + k) c)) ∧
      ((∀ tr ∈ txns, monthIndex tr.date ≠ monthLo txns + k) →
        (aggregate txns)[k]? = some (categories.map (fun _ => (0:Rat))))) := by
  rcases txns with _ | ⟨t, ts⟩
  · exact absurd rfl hne
  · refine ⟨by simp [aggregate], ?_, ?_, ?_, ?_⟩
    · intro tr htr
      rcases List.mem_cons.mp htr with rfl | hmem
      · exact ⟨foldl_min_le_init _ _, init_le_foldl_max _ _⟩
      · refine ⟨foldl_min_le_mem (List.mem_map_of_mem _ hmem) _, ?_⟩
        show monthIndex tr.date ≤
          (ts.map (fun u => monthIndex u.date)).foldl max (monthIndex t.date)
        exact mem_le_foldl_max
          (List.mem_map_of_mem (fun u => monthIndex u.date) hmem)
          (monthIndex t.date)
    · rcases foldl_min_choice (ts.map (fun u => monthIndex u.date))
        (monthIndex t.date) with h | h
      · exact ⟨t, List.mem_cons_self t ts, h.symm⟩
      · obtain ⟨u, hu, hfu⟩ := List.mem_map.mp h
        exact ⟨u, List.mem_cons_of_mem t hu, hfu⟩
    · rcases foldl_max_choice (ts.map (fun u => monthIndex u.date))
        (monthIndex t.date) with h | h
      · exact ⟨t, List.mem_cons_self t ts, h.symm⟩
      · obtain ⟨u, hu, hfu⟩ := List.mem_map.mp h
        exact ⟨u, List.mem_cons_of_mem t hu, hfu⟩
    · intro k hk
      have hklt : k < monthHi (t :: ts) - monthLo (t :: ts) + 1 :=
        Nat.lt_succ_of_le hk
      refine ⟨aggregate_row t ts hklt, ?_⟩
      intro hnone
      rw [aggregate_row t ts hklt]
      rw [List.map_congr_left
        (fun c _ => monthCatSum_eq_zero hnone c)]

end Forecast

namespace Forecast

/-- Witness for the C5 theorem on a history with a skipped middle month:
three rows are produced and the middle one is all zeros. -/
theorem aggregate_no_month_gaps_witness :
    (aggregate gapTxns).length = 3 ∧
    (aggregate gapTxns)[1]? = some (categories.map (fun _ => (0:Rat))) := by
  have h := aggregate_no_month_gaps gapTxns (by decide)
  constructor
  · rw [h.1]
    decide
  · exact (h.2.2.2.2 1 (by decide)).2 (by decide)

/-- C8: on the trend-fallback path the predicted amount of every category
is the arithmetic mean of its observed monthly magnitudes times the fixed
seasonal multiplier for (category, target month), and the multiplier is
1.0 for categories outside the seasonal table. -/
theorem trend_prediction_formula (lstm : List (List Rat) → List Rat)
    (txns : List SpendingRow) (tm ty : Int) (c : Nat)
    (hlen : (aggregate txns).length < WINDOW) (hc : c < categories.length) :
    ((forecast lstm txns tm ty).predictions.getD c default).predicted_amount
      = colMean (aggregate txns) c *
        seasonalMultiplier (categories.getD c "other") tm ∧
    (categories.getD c "other" ≠ "shopping" →
      categories.getD c "other" ≠ "travel" →
      categories.getD c "other" ≠ "utilities" →
      seasonalMultiplier (categories.getD c "other") tm = 1) := by
  constructor
  · simp only [forecast]
    rw [if_neg (not_le.mpr hlen)]
    rw [getD_map_range _ _ hc]
    rfl
  · intro h1 h2 h3
    unfold seasonalMultiplier
    rw [if_neg (fun hand => h1 hand.1), if_neg (fun hand => h1 hand.1),
        if_neg (fun hand => h2 hand.1), if_neg (fun hand => h3 hand.1)]

/-- Witness for the C8 theorem: three months of shopping at 150, 200, 250
(mean 200) and target month December give 200 × 1.8 = 360. -/
theorem trend_prediction_formula_witness :
    ((forecast lstmZero txns3 12 2024).predictions.getD 2 default).predicted_amount
      = 360 := by
  have h := trend_prediction_formula lstmZero txns3 12 2024 2 (by decide) (by decide)
  rw [h.1]
  norm_num [aggregate, txns3, monthLo, monthHi, monthIndex, monthCatSum, magnitude,
    categories, cleanCategory, colMean, column, seasonalMultiplier, List.range_succ]

/-! ## Claim theorems (backend boundary) -/

/-- C1: when the user has fewer than 15 stored expense rows the predict
route answers the insufficient-data body (empty predictions list,
`insufficient_data: true`), leaves the database unchanged and never calls
the ML service (the outcome does not depend on the engine); with 15 or
more expense rows the service is always invoked, with no condition on how
many distinct months those rows span. -/
theorem predict_gate_c1 (engine engine2 : MLRequest → MLResponse) (db : DB)
    (uid : Nat) (mp yp : Option Int) (nm : Nat) (ny : Int) :
    ((db.transactions.filter
        (fun t => decide (t.user_id = uid ∧ t.amount < 0))).length
          < MIN_TRANSACTIONS →
      (predictHandler engine db uid mp yp nm ny).mlRequest = none ∧
      (predictHandler engine db uid mp yp nm ny).response.predictionList = [] ∧
      (predictHandler engine db uid mp yp nm ny).response.insufficientFlag
        = true ∧
      (predictHandler engine db uid mp yp nm ny).db = db ∧
      predictHandler engine db uid mp yp nm ny
        = predictHandler engine2 db uid mp yp nm ny) ∧
    (MIN_TRANSACTIONS ≤
        (db.transactions.filter
          (fun t => decide (t.user_id = uid ∧ t.amount < 0))).length →
      (predictHandler engine db uid mp yp nm ny).mlRequest
        = some (reqOf db uid mp yp nm ny)) := by
  have hq := length_querySpending db.transactions uid
  constructor
  · intro h
    have hlt : (querySpending db.transactions uid).length < MIN_TRANSACTIONS := by
      rw [hq]
      exact lt_of_le_of_lt (min_le_right _ _) h
    rw [predictHandler_insufficient_eq engine db uid mp yp nm ny hlt,
        predictHandler_insufficient_eq engine2 db uid mp yp nm ny hlt]
    exact ⟨rfl, rfl, rfl, rfl, rfl⟩
  · intro h
    have hge : MIN_TRANSACTIONS ≤ (querySpending db.transactions uid).length := by
      rw [hq]
      exact le_min (by decide) h
    exact predictHandler_mlRequest_eq engine db uid mp yp nm ny hge

/-- Witness for the C1 theorem: a user with 3 expense rows is gated, a
user with 16 expense rows reaches the ML service. -/
theorem predict_gate_c1_witness :
    (predictHandler (engineOf lstmZero) wFewDB 1 none none 11 2024).mlRequest
      = none ∧
    (predictHandler (engineOf lstmZero) wDB 1 none none 11 2024).mlRequest
      = some (reqOf wDB 1 none none 11 2024) := by
  constructor
  · exact ((predict_gate_c1 (engineOf lstmZero) (engineOf lstmZero) wFewDB 1
      none none 11 2024).1 (by decide)).1
  · exact (predict_gate_c1 (engineOf lstmZero) (engineOf lstmZero) wDB 1
      none none 11 2024).2 (by decide)

/-- C2: every row the predict route forwards to the ML service is an
expense row (amount < 0) of the requesting user, the forwarded list is
ordered by date descending and holds at most 1000 rows, and the engine's
sign normalisation turns each forwarded amount into a positive
magnitude. -/
theorem predict_expenses_only_c2 (engine : MLRequest → MLResponse) (db : DB)
    (uid : Nat) (mp yp : Option Int) (nm : Nat) (ny : Int) (req : MLRequest)
    (h : (predictHandler engine db uid mp yp nm ny).mlRequest = some req) :
    req.spending_data.length ≤ QUERY_LIMIT ∧
    SortedDesc req.spending_data ∧
    ∀ r ∈ req.spending_data,
      r.amount < 0 ∧ magnitude r.amount = -r.amount ∧ 0 < magnitude r.amount ∧
      ∃ t ∈ db.transactions, t.user_id = uid ∧ t.amount < 0 ∧
        t.toSpending = r := by
  rcases lt_or_le (querySpending db.transactions uid).length MIN_TRANSACTIONS
    with hlt | hge
  · rw [predictHandler_insufficient_eq engine db uid mp yp nm ny hlt] at h
    simp at h
  · rw [predictHandler_mlRequest_eq engine db uid mp yp nm ny hge] at h
    obtain rfl : reqOf db uid mp yp nm ny = req := Option.some.inj h
    refine ⟨?_, ?_, ?_⟩
    · show (querySpending db.transactions uid).length ≤ QUERY_LIMIT
      rw [length_querySpending]
      exact min_le_left _ _
    · show SortedDesc (querySpending db.transactions uid)
      unfold querySpending
      exact List.Pairwise.sublist (List.take_sublist _ _)
        (sortedDesc_sortByDateDesc _)
    · intro r hr
      have hr2 : r ∈ sortByDateDesc
          ((db.transactions.filter
            (fun t => decide (t.user_id = uid ∧ t.amount < 0))).map
            TxnRow.toSpending) :=
        (List.take_sublist _ _).subset hr
      obtain ⟨t, ht, rfl⟩ := List.mem_map.mp (mem_sortByDateDesc.mp hr2)
      obtain ⟨htmem, htp⟩ := List.mem_filter.mp ht
      have htq : t.user_id = uid ∧ t.amount < 0 := of_decide_eq_true htp
      have habs : magnitude (TxnRow.toSpending t).amount
          = -(TxnRow.toSpending t).amount := abs_of_neg htq.2
      refine ⟨htq.2, habs, ?_, t, htmem, htq.1, htq.2, rfl⟩
      rw [habs]
      exact neg_pos.mpr htq.2

/-- Witness for the C2 theorem on the concrete 16-transaction database. -/
theorem predict_expenses_only_c2_witness :
    wReq.spending_data.length ≤ QUERY_LIMIT ∧
    SortedDesc wReq.spending_data ∧
    ∀ r ∈ wReq.spending_data,
      r.amount < 0 ∧ magnitude r.amount = -r.amount ∧ 0 < magnitude r.amount ∧
      ∃ t ∈ wDB.transactions, t.user_id = 1 ∧ t.amount < 0 ∧
        t.toSpending = r :=
  predict_expenses_only_c2 (engineOf lstmZero) wDB 1 none none 11 2024 wReq
    (by rfl)

/-- C9: with no (or a falsy) month query parameter the target month is the
zero-based current month plus 2 with no wrap-around, so a December request
uses target month 13, which is both forwarded to the ML service and
written into every newly stored prediction row. -/
theorem predict_no_wraparound_c9 (engine : MLRequest → MLResponse)
    (db : DB) (uid : Nat) (yp : Option Int) (ny : Int) (req : MLRequest)
    (h : (predictHandler engine db uid none yp 11 ny).mlRequest = some req) :
    targetMonthOf none 11 = 13 ∧
    req.target_month = 13 ∧
    ∀ p ∈ (predictHandler engine db uid none yp 11 ny).db.predictions,
      p ∉ db.predictions → p.month = 13 := by
  rcases lt_or_le (querySpending db.transactions uid).length MIN_TRANSACTIONS
    with hlt | hge
  · rw [predictHandler_insufficient_eq engine db uid none yp 11 ny hlt] at h
    simp at h
  · rw [predictHandler_mlRequest_eq engine db uid none yp 11 ny hge] at h
    obtain rfl : reqOf db uid none yp 11 ny = req := Option.some.inj h
    refine ⟨rfl, rfl, ?_⟩
    intro p hp hnot
    rw [predictHandler_db_eq engine db uid none yp 11 ny hge] at hp
    by_cases hne :
        0 < (engine (reqOf db uid none yp 11 ny)).predictions.length
    · rw [if_pos hne] at hp
      simp only [newPredictions] at hp
      rcases List.mem_append.mp hp with hkept | hins
      · exact absurd ((List.filter_sublist _).subset hkept) hnot
      · obtain ⟨pred, hpred, rfl⟩ := List.mem_map.mp hins
        rfl
    · rw [if_neg hne] at hp
      exact absurd hp hnot

/-- Witness for the C9 theorem: the concrete December request posts
target month 13. -/
theorem predict_no_wraparound_c9_witness :
    targetMonthOf none 11 = 13 ∧
    wReq.target_month = 13 ∧
    ∀ p ∈ (predictHandler (engineOf lstmZero) wDB 1 none none 11
        2024).db.predictions,
      p ∉ wDB.predictions → p.month = 13 :=
  predict_no_wraparound_c9 (engineOf lstmZero) wDB 1 none 2024 wReq (by rfl)

/-- C10: a predict request never touches the transactions table; it leaves
the whole database unchanged when the service is not called or returns an
empty predictions list, and otherwise replaces exactly the requesting
user's rows for the target (month, year) with the returned predictions —
rows of other users or other periods are preserved, and every row of the
resulting table is either an old row or a new row keyed by the requesting
user and target period. -/
theorem predict_frame_c10 (engine : MLRequest → MLResponse) (db : DB)
    (uid : Nat) (mp yp : Option Int) (nm : Nat) (ny : Int) :
    (predictHandler engine db uid mp yp nm ny).db.transactions
      = db.transactions ∧
    ((predictHandler engine db uid mp yp nm ny).mlRequest = none →
      (predictHandler engine db uid mp yp nm ny).db = db) ∧
    (∀ req, (predictHandler engine db uid mp yp nm ny).mlRequest = some req →
      ((engine req).predictions = [] →
        (predictHandler engine db uid mp yp nm ny).db = db) ∧
      ((engine req).predictions ≠ [] →
        (predictHandler engine db uid mp yp nm ny).db.predictions =
          newPredictions db uid (targetMonthOf mp nm) (targetYearOf yp ny)
            (engine req).predictions)) ∧
    (∀ p ∈ db.predictions,
      ¬(p.user_id = uid ∧ p.month = targetMonthOf mp nm ∧
          p.year = targetYearOf yp ny) →
      p ∈ (predictHandler engine db uid mp yp nm ny).db.predictions) ∧
    (∀ p ∈ (predictHandler engine db uid mp yp nm ny).db.predictions,
      p ∈ db.predictions ∨
      (p.user_id = uid ∧ p.month = targetMonthOf mp nm ∧
        p.year = targetYearOf yp ny)) := by
  rcases lt_or_le (querySpending db.transactions uid).length MIN_TRANSACTIONS
    with hlt | hge
  · rw [predictHandler_insufficient_eq engine db uid mp yp nm ny hlt]
    refine ⟨rfl, fun _ => rfl, ?_, ?_, ?_⟩
    · intro req hreq
      simp at hreq
    · intro p hp _
      exact hp
    · intro p hp
      exact Or.inl hp
  · have hml := predictHandler_mlRequest_eq engine db uid mp yp nm ny hge
    have hdb := predictHandler_db_eq engine db uid mp yp nm ny hge
    rcases Nat.eq_zero_or_pos
        (engine (reqOf db uid mp yp nm ny)).predictions.length with hz | hpos
    · have hdb2 : (predictHandler engine db uid mp yp nm ny).db = db := by
        rw [hdb, hz]
        simp
      refine ⟨by rw [hdb2], fun _ => hdb2, ?_, ?_, ?_⟩
      · intro req hreq
        obtain rfl : reqOf db uid mp yp nm ny = req :=
          Option.some.inj (hml.symm.trans hreq)
        refine ⟨fun _ => hdb2, ?_⟩
        intro hne
        exact absurd (List.length_eq_zero.mp hz) hne
      · intro p hp _
        rw [hdb2]
        exact hp
      · intro p hp
        rw [hdb2] at hp
        exact Or.inl hp
    · have hdb2 : (predictHandler engine db uid mp yp nm ny).db =
          { transactions := db.transactions,
            predictions := newPredictions db uid (targetMonthOf mp nm)
              (targetYearOf yp ny)
              (engine (reqOf db uid mp yp nm ny)).predictions } := by
        rw [hdb, if_pos hpos]
      refine ⟨by rw [hdb2], ?_, ?_, ?_, ?_⟩
      · intro hnone
        rw [hml] at hnone
        exact Option.noConfusion hnone
      · intro req hreq
        obtain rfl : reqOf db uid mp yp nm ny = req :=
          Option.some.inj (hml.symm.trans hreq)
        refine ⟨?_, ?_⟩
        · intro hempty
          rw [hempty] at hpos
          simp at hpos
        · intro _
          rw [hdb2]
      · intro p hp hnot
        rw [hdb2]
        show p ∈ newPredictions db uid (targetMonthOf mp nm)
          (targetYearOf yp ny)
          (engine (reqOf db uid mp yp nm ny)).predictions
        unfold newPredictions
        apply List.mem_append_left
        exact List.mem_filter.mpr ⟨hp, by simp [hnot]⟩
      · intro p hp
        rw [hdb2] at hp
        simp only [newPredictions] at hp
        rcases List.mem_append.mp hp with hkept | hins
        · exact Or.inl ((List.filter_sublist _).subset hkept)
        · obtain ⟨pred, hpred, rfl⟩ := List.mem_map.mp hins
          exact Or.inr ⟨rfl, rfl, rfl⟩

/-- Witness for the C10 theorem: another user's stored prediction row
survives a concrete predict request, and the transactions table is
untouched. -/
theorem predict_frame_c10_witness :
    wOtherPred ∈ (predictHandler (engineOf lstmZero) wDB 1 none none 11
      2024).db.predictions ∧
    (predictHandler (engineOf lstmZero) wDB 1 none none 11
      2024).db.transactions = wDB.transactions := by
  have h := predict_frame_c10 (engineOf lstmZero) wDB 1 none none 11 2024
  exact ⟨h.2.2.2.1 wOtherPred (by decide) (by decide), h.1⟩

end Forecast
